import Mathlib

/-!
Verification development for the Mikasa-WA-bot economy module.

The embedding models the two source files:

* `src/utils/economy-db.js` — a JSON-file-backed account store. The whole
  persisted file is the object parsed from disk; we model its `users` map as an
  association list `Store`. Every db function performs `load` (read the file),
  mutates the in-memory object, and `save` (write the whole file back); in the
  embedding each function takes the current `Store` and returns the new `Store`
  together with its JS return value, which collapses the synchronous
  load/modify/save sequence into one pure function.

* `src/commands/Economy.js` — the command handler. We embed the pure pieces
  the claims are about: `parseBet`, the `stakeAndCheck` wager gate, the spin
  outcome table, the roulette outcome table, and the cooldown wait display.
  The random draw `Math.random() * 100` (a real number in the half-open
  interval from 0 to 100) is modelled as a rational number; the branch logic
  only compares the draw against integer thresholds, so any dense ordered
  field is a faithful carrier.

JS numbers in the economy paths are integers (rewards, bets, timestamps), so
amounts and timestamps are modelled as `Int`.
-/

namespace MikasaEconomy

/-- One entry of an account's activity history: the source pushes objects with
fields `time` (a `Date.now()` timestamp) and `change` (the signed amount). -/
structure HistEntry where
  time : Int
  change : Int
deriving DecidableEq, Repr

/-- One user record of `economy.json`: fields `gold`, `cooldowns` (map from
action name to last-claim timestamp) and `history`. -/
structure Account where
  gold : Int
  cooldowns : List (String × Int)
  history : List HistEntry
deriving DecidableEq, Repr

/-- The `users` map of the persisted file, keyed by user id. -/
abbrev Store := List (String × Account)

/-- Lookup in the `users` object (`db.users[userId]`). -/
def lookupAcc : Store → String → Option Account
  | [], _ => none
  | (k, v) :: rest, id => if k = id then some v else lookupAcc rest id

/-- Assignment `db.users[userId] = u`: overwrite the binding if the key is
present, append it otherwise. -/
def setAcc : Store → String → Account → Store
  | [], id, u => [(id, u)]
  | (k, v) :: rest, id, u =>
      if k = id then (id, u) :: rest else (k, v) :: setAcc rest id u

/-- Lookup in an account's `cooldowns` object. -/
def lookupCd : List (String × Int) → String → Option Int
  | [], _ => none
  | (k, v) :: rest, key => if k = key then some v else lookupCd rest key

/-- Assignment `u.cooldowns[key] = ts`. -/
def setCd : List (String × Int) → String → Int → List (String × Int)
  | [], key, ts => [(key, ts)]
  | (k, v) :: rest, key, ts =>
      if k = key then (key, ts) :: rest else (k, v) :: setCd rest key ts

/-- Source `load()`: read and parse the file; on any failure (absent file,
unreadable, bad JSON) the `catch` returns the empty object `users = empty`.
The argument is `none` exactly when reading or parsing fails. -/
def load (file : Option Store) : Store := file.getD []

/-- Source `getUser(userId)`: `db.users[userId] || null`. -/
def getUser (db : Store) (id : String) : Option Account := lookupAcc db id

/-- The fresh record `ensureUser` creates: zero gold, empty cooldowns, empty
history. -/
def defaultAccount : Account := { gold := 0, cooldowns := [], history := [] }

/-- Source `ensureUser(userId)`: create the record if absent (and persist),
return the (possibly new) record. The returned pair is (new file contents,
returned record). -/
def ensureUser (db : Store) (id : String) : Store × Account :=
  match lookupAcc db id with
  | some u => (db, u)
  | none => (setAcc db id defaultAccount, defaultAccount)

/-- Source `set(userId, obj)`: overwrite the record and persist. -/
def set (db : Store) (id : String) (u : Account) : Store := setAcc db id u

/-- Source `add(userId, amount)`: ensure the user, increase `gold` by the
amount, push a history entry with `change = amount`, persist; returns the new
gold. `now` stands for `Date.now()` at the push. -/
def add (db : Store) (id : String) (now amount : Int) : Store × Int :=
  let p := ensureUser db id
  let u := p.2
  let u2 : Account :=
    { u with gold := u.gold + amount,
             history := u.history ++ [{ time := now, change := amount }] }
  (set p.1 id u2, u2.gold)

/-- Source `remove(userId, amount)`: ensure the user, set `gold` to
`max(0, gold - amount)` (clamp at zero), push a history entry with
`change = -amount` (the requested amount negated), persist; returns the new
gold. -/
def remove (db : Store) (id : String) (now amount : Int) : Store × Int :=
  let p := ensureUser db id
  let u := p.2
  let u2 : Account :=
    { u with gold := max 0 (u.gold - amount),
             history := u.history ++ [{ time := now, change := -amount }] }
  (set p.1 id u2, u2.gold)

/-- Source `setCooldown(userId, key, timestamp)`. -/
def setCooldown (db : Store) (id key : String) (ts : Int) : Store :=
  let p := ensureUser db id
  set p.1 id { p.2 with cooldowns := setCd p.2.cooldowns key ts }

/-- Source `getCooldown(userId, key)`: ensure the user (which persists a fresh
record when absent) and return `cooldowns[key] || 0`; an absent entry reads
as 0. -/
def getCooldown (db : Store) (id key : String) : Store × Int :=
  let p := ensureUser db id
  (p.1, (lookupCd p.2.cooldowns key).getD 0)

/-- The comparison at the heart of source `canClaim`: `if (!last) return true;
return (Date.now() - last) >= ms`. A zero (= never recorded) timestamp always
grants. -/
def canClaimAt (last now ms : Int) : Bool :=
  if last = 0 then true else decide (ms ≤ now - last)

/-- Source `canClaim(userId, key, ms)`: read the cooldown and compare. -/
def canClaim (db : Store) (id key : String) (ms now : Int) : Store × Bool :=
  let p := getCooldown db id key
  (p.1, canClaimAt p.2 now ms)

/-- Balance as the handler reads it: `(u && u.gold) || 0` — gold of the
record, or 0 when the record is absent. -/
def goldOf (db : Store) (id : String) : Int :=
  match getUser db id with
  | some u => u.gold
  | none => 0

/-- History of the record, or empty when the record is absent. -/
def histOf (db : Store) (id : String) : List HistEntry :=
  match getUser db id with
  | some u => u.history
  | none => []

/-- Sum of the `change` fields of a history, in order. -/
def histSum (l : List HistEntry) : Int := l.foldl (fun acc e => acc + e.change) 0

/-! Command-layer definitions from `src/commands/Economy.js`. -/

/-- Value of a list of decimal digit characters, as `parseInt` accumulates
them left to right. -/
def digitsVal (cs : List Char) : Nat := cs.foldl (fun acc c => 10 * acc + (c.toNat - 48)) 0

/-- The regex replace in `parseBet`: drop every character that is neither a
decimal digit nor a minus sign. -/
def stripNonDigitMinus (s : String) : String :=
  String.mk (s.data.filter (fun c => c.isDigit || c = '-'))

/-- JS `parseInt(s, 10)` restricted to strings containing only digits and
minus signs (the only inputs it receives in `parseBet`, after the strip):
an optional leading minus sign followed by the longest digit run; `none`
models the `NaN` result when no leading digits exist. -/
def parseIntJS (s : String) : Option Int :=
  match s.data with
  | [] => none
  | '-' :: rest =>
      let ds := rest.takeWhile Char.isDigit
      if ds.isEmpty then none else some (-(digitsVal ds : Int))
  | cs =>
      let ds := cs.takeWhile Char.isDigit
      if ds.isEmpty then none else some ((digitsVal ds : Int))

/-- Source `parseBet(a)`: a missing/empty argument gives 0; otherwise strip
non-digit/minus characters and `parseInt`; `NaN` gives 0, and any parsed
number is raised to at least 1 by `Math.max(1, num)`. -/
def parseBet (a : Option String) : Int :=
  match a with
  | none => 0
  | some s =>
      if s = "" then 0
      else
        match parseIntJS (stripNonDigitMinus s) with
        | none => 0
        | some n => max 1 n

/-- Result of the `stakeAndCheck` gate: the two decline messages are
distinguished as invalid bet vs insufficient funds, and acceptance carries the
balance it read. -/
inductive StakeResult where
  | invalidBet : StakeResult
  | insufficient (bal : Int) : StakeResult
  | ok (bal : Int) : StakeResult
deriving DecidableEq, Repr

/-- Source `stakeAndCheck(bet)` on a balance `bal` already read from the
store: decline when `bet <= 0`, decline when `bet > bal`, accept otherwise. -/
def stakeAndCheck (bet bal : Int) : StakeResult :=
  if bet ≤ 0 then .invalidBet
  else if bal < bet then .insufficient bal
  else .ok bal

/-- The spin multiplier table over a draw `r` in the half-open interval from
0 to 100: below 50 lose, below 85 double, below 97 quintuple, else tenfold. -/
def spinMult (r : ℚ) : Int :=
  if r < 50 then 0
  else if r < 85 then 2
  else if r < 97 then 5
  else 10

/-- The balance delta a spin outcome applies: `-bet` on a loss, `bet * mult`
on a win (the win branch only credits, so the stake is implicitly returned). -/
def spinDelta (bet : Int) (r : ℚ) : Int :=
  if spinMult r = 0 then -bet else bet * spinMult r

/-- The spin command's effect on the store, after the handler's initial
`ensureUser`: read the balance, run `stakeAndCheck`; on decline reply without
touching the store; on a losing draw `remove(bet)`, on a winning draw
`add(bet * mult)`. -/
def spinGo (db : Store) (id : String) (bet : Int) (r : ℚ) (now : Int) : Store :=
  match stakeAndCheck bet (goldOf db id) with
  | .ok _ =>
      if spinMult r = 0 then (remove db id now bet).1
      else (add db id now (bet * spinMult r)).1
  | _ => db

/-- Wheel color in the roulette handler: green on 0, else black on even and
red on odd. -/
def rouletteColor (w : Nat) : String :=
  if w = 0 then "green" else if w % 2 = 0 then "black" else "red"

/-- The digits test and parse of the roulette pick: the handler treats
the pick as a number exactly when it is nonempty and all digits. -/
def pickNumOf (pick : String) : Option Nat :=
  if pick ≠ "" && pick.data.all Char.isDigit then some (digitsVal pick.data) else none

/-- The balance delta the roulette handler applies for bet `bet`, pick string
`pick` (already lowercased; empty = no pick) and wheel draw `w`: no pick
loses the bet; a numeric pick wins 36-fold on an exact match and loses
otherwise; any other pick wins as a color pick when it equals the wheel color
(14-fold on green, else 2-fold) and loses otherwise. -/
def rouletteDelta (bet : Int) (pick : String) (w : Nat) : Int :=
  if pick = "" then -bet
  else
    match pickNumOf pick with
    | some n => if n = w then bet * 36 else -bet
    | none =>
        if pick = rouletteColor w then
          bet * (if rouletteColor w = "green" then 14 else 2)
        else -bet

/-- The cooldown wait the handler reports: `Math.ceil((ms - elapsed) / unit)`
where `unit` is the period's display granularity (60000 for minute display,
3600000 for hours, 86400000 for days). For the positive numerators the
handler produces, the integer ceiling equals this floor-division form. -/
def waitDisplay (ms elapsed unit : Int) : Int := (ms - elapsed + unit - 1) / unit

/-! Sequences of balance mutations. Every balance change in the module goes
through `add` or `remove`: earning claims and wager wins call `add` with the
reward or `bet * mult`, wager losses call `remove` with the bet, and the
owner `give` calls `add` with a validated positive amount. -/

/-- One balance mutation: the `Date.now()` timestamp it records and the
amount passed to `add` or `remove`. -/
inductive EcoOp where
  | opAdd (now amount : Int) : EcoOp
  | opRemove (now amount : Int) : EcoOp
deriving DecidableEq, Repr

/-- Amount carried by a mutation. -/
def amountOf : EcoOp → Int
  | .opAdd _ a => a
  | .opRemove _ a => a

/-- Apply one mutation to the store. -/
def applyOp (db : Store) (id : String) : EcoOp → Store
  | .opAdd now amt => (add db id now amt).1
  | .opRemove now amt => (remove db id now amt).1

/-- Run a sequence of mutations in order. -/
def runOps (db : Store) (id : String) : List EcoOp → Store
  | [] => db
  | op :: rest => runOps (applyOp db id op) id rest

/-- Decide whether a run never triggers the clamp in `remove`: every
`opRemove` amount is at most the balance at the moment it applies. -/
def clampFree (db : Store) (id : String) : List EcoOp → Bool
  | [] => true
  | op :: rest =>
      (match op with
        | .opAdd _ _ => true
        | .opRemove _ amt => decide (amt ≤ goldOf db id)) &&
      clampFree (applyOp db id op) id rest

/-! Store lemmas shared by the claim theorems. -/

theorem lookupAcc_setAcc_self (db : Store) (id : String) (u : Account) :
    lookupAcc (setAcc db id u) id = some u := by
  induction db with
  | nil => simp [setAcc, lookupAcc]
  | cons kv rest ih =>
      obtain ⟨k, v⟩ := kv
      by_cases h : k = id
      · simp [setAcc, h, lookupAcc]
      · simp [setAcc, h, lookupAcc, ih]

theorem ensureUser_of_some {db : Store} {id : String} {u : Account}
    (h : lookupAcc db id = some u) : ensureUser db id = (db, u) := by
  simp [ensureUser, h]

theorem ensureUser_of_none {db : Store} {id : String}
    (h : lookupAcc db id = none) :
    ensureUser db id = (setAcc db id defaultAccount, defaultAccount) := by
  simp [ensureUser, h]

theorem getUser_ensureUser_fst (db : Store) (id : String) :
    getUser (ensureUser db id).1 id = some (ensureUser db id).2 := by
  cases h : lookupAcc db id with
  | none => simp [ensureUser_of_none h, getUser, lookupAcc_setAcc_self]
  | some u => simp [ensureUser_of_some h, getUser, h]

theorem ensureUser_snd_gold (db : Store) (id : String) :
    (ensureUser db id).2.gold = goldOf db id := by
  cases h : lookupAcc db id with
  | none => simp [ensureUser_of_none h, goldOf, getUser, h, defaultAccount]
  | some u => simp [ensureUser_of_some h, goldOf, getUser, h]

theorem ensureUser_snd_history (db : Store) (id : String) :
    (ensureUser db id).2.history = histOf db id := by
  cases h : lookupAcc db id with
  | none => simp [ensureUser_of_none h, histOf, getUser, h, defaultAccount]
  | some u => simp [ensureUser_of_some h, histOf, getUser, h]

theorem goldOf_add (db : Store) (id : String) (now amt : Int) :
    goldOf ((add db id now amt).1) id = goldOf db id + amt := by
  simp [add, set, goldOf, getUser, lookupAcc_setAcc_self, ensureUser_snd_gold]

theorem goldOf_remove (db : Store) (id : String) (now amt : Int) :
    goldOf ((remove db id now amt).1) id = max 0 (goldOf db id - amt) := by
  simp [remove, set, goldOf, getUser, lookupAcc_setAcc_self, ensureUser_snd_gold]

theorem histOf_add (db : Store) (id : String) (now amt : Int) :
    histOf ((add db id now amt).1) id = histOf db id ++ [{ time := now, change := amt }] := by
  simp [add, set, histOf, getUser, lookupAcc_setAcc_self, ensureUser_snd_history]

theorem histOf_remove (db : Store) (id : String) (now amt : Int) :
    histOf ((remove db id now amt).1) id = histOf db id ++ [{ time := now, change := -amt }] := by
  simp [remove, set, histOf, getUser, lookupAcc_setAcc_self, ensureUser_snd_history]

theorem histSum_append_single (l : List HistEntry) (e : HistEntry) :
    histSum (l ++ [e]) = histSum l + e.change := by
  simp [histSum, List.foldl_append]

theorem clampFree_histSum_run (ops : List EcoOp) :
    ∀ db : Store, ∀ id : String,
      histSum (histOf db id) = goldOf db id →
      clampFree db id ops = true →
      histSum (histOf (runOps db id ops) id) = goldOf (runOps db id ops) id := by
  induction ops with
  | nil => intro db id hinv _; simpa [runOps] using hinv
  | cons op rest ih =>
      intro db id hinv hcf
      rw [runOps]
      cases op with
      | opAdd now amt =>
          simp only [clampFree, Bool.true_and] at hcf
          refine ih (applyOp db id (.opAdd now amt)) id ?_ hcf
          simp [applyOp, histOf_add, goldOf_add, histSum_append_single, hinv]
      | opRemove now amt =>
          simp only [clampFree, Bool.and_eq_true, decide_eq_true_eq] at hcf
          obtain ⟨hop, hrest⟩ := hcf
          refine ih (applyOp db id (.opRemove now amt)) id ?_ hrest
          have hg : max 0 (goldOf db id - amt) = goldOf db id - amt := by omega
          simp only [applyOp, histOf_remove, goldOf_remove, histSum_append_single, hinv, hg]
          omega

theorem goldOf_runOps_nonneg (ops : List EcoOp) :
    ∀ db : Store, ∀ id : String,
      0 ≤ goldOf db id →
      (∀ op ∈ ops, 0 ≤ amountOf op) →
      0 ≤ goldOf (runOps db id ops) id := by
  induction ops with
  | nil => intro db id h _; simpa [runOps] using h
  | cons op rest ih =>
      intro db id h hamt
      rw [runOps]
      refine ih (applyOp db id op) id ?_ (fun o ho => hamt o (List.mem_cons_of_mem _ ho))
      cases op with
      | opAdd now amt =>
          have := hamt _ (List.mem_cons_self _ _)
          simp only [amountOf] at this
          rw [applyOp, goldOf_add]
          omega
      | opRemove now amt =>
          rw [applyOp, goldOf_remove]
          exact le_max_left _ _

/-! Claim C1. -/

/-- C1, counterexample: on a fresh account (balance 0), `remove` of 10 clamps
the balance at 0 but records `change = -10` — the requested amount negated,
not the actually applied delta `-(old balance) = 0` — so the sum of history
deltas (-10) no longer equals the balance (0). This refutes the claim that
the history entry records the delta actually applied and that replaying the
history reproduces the balance. -/
theorem C1_counterexample_clamped_remove_records_requested_amount :
    histOf ((remove (ensureUser [] "u").1 "u" 5 10).1) "u" = [{ time := 5, change := -10 }] ∧
    goldOf ((remove (ensureUser [] "u").1 "u" 5 10).1) "u" = 0 ∧
    ({ time := 5, change := -10 } : HistEntry).change ≠ -(goldOf (ensureUser [] "u").1 "u") ∧
    histSum (histOf ((remove (ensureUser [] "u").1 "u" 5 10).1) "u") ≠
      goldOf ((remove (ensureUser [] "u").1 "u" 5 10).1) "u" := by
  decide

/-- C1, amended: the store's debit operation `remove` always appends a history
entry recording the negated *requested* amount (even when the debit is clamped
at zero), and consequently the sum of history deltas equals the current
balance only for clamp-free operation sequences: for every sequence of
`add`/`remove` operations from account creation in which every `remove`
amount is at most the balance at the moment it applies, the sum of history
deltas equals the resulting balance. -/
theorem C1_amended_remove_records_requested_and_clampfree_replay
    (db : Store) (id : String) (now amt : Int) (ops : List EcoOp) :
    histOf ((remove db id now amt).1) id =
      histOf db id ++ [{ time := now, change := -amt }] ∧
    (clampFree (ensureUser [] id).1 id ops = true →
      histSum (histOf (runOps (ensureUser [] id).1 id ops) id) =
        goldOf (runOps (ensureUser [] id).1 id ops) id) := by
  refine ⟨histOf_remove db id now amt, fun hcf => ?_⟩
  refine clampFree_histSum_run ops _ id ?_ hcf
  have h : lookupAcc ([] : Store) id = none := rfl
  simp [ensureUser_of_none h, setAcc, histOf, goldOf, getUser, lookupAcc, defaultAccount, histSum]

/-- C1 witness: a concrete clamp-free run (credit 5 then debit 3 on a fresh
account) whose history deltas sum to the final balance. -/
theorem C1_amended_witness :
    histSum (histOf (runOps (ensureUser [] "u").1 "u"
        [EcoOp.opAdd 1 5, EcoOp.opRemove 2 3]) "u") =
      goldOf (runOps (ensureUser [] "u").1 "u"
        [EcoOp.opAdd 1 5, EcoOp.opRemove 2 3]) "u" :=
  (C1_amended_remove_records_requested_and_clampfree_replay [] "u" 0 0
    [EcoOp.opAdd 1 5, EcoOp.opRemove 2 3]).2 (by decide)

/-! Claim C3. -/

/-- C3: for every account and every sequence of balance operations with
non-negative amounts (earning claims, wager wins and administrative credits
call `add` with non-negative amounts; wager losses call `remove` with the
positive bet), starting from any store in which the account's balance is
non-negative, the balance is non-negative after every operation (every prefix
of the run): `remove` clamps a debit that would drive the balance negative to
zero rather than going negative. -/
theorem C3_balance_nonneg_after_every_operation
    (db : Store) (id : String) (ops : List EcoOp)
    (h0 : 0 ≤ goldOf db id) (hamt : ∀ op ∈ ops, 0 ≤ amountOf op) (n : ℕ) :
    0 ≤ goldOf (runOps db id (ops.take n)) id :=
  goldOf_runOps_nonneg (ops.take n) db id h0
    (fun op ho => hamt op (List.take_subset n ops ho))

/-- C3 witness: a fresh account, credit 5 then debit 7 (which clamps);
the balance after both operations is non-negative. -/
theorem C3_balance_nonneg_witness :
    0 ≤ goldOf (runOps (ensureUser [] "u").1 "u"
        ([EcoOp.opAdd 0 5, EcoOp.opRemove 1 7].take 2)) "u" :=
  C3_balance_nonneg_after_every_operation (ensureUser [] "u").1 "u"
    [EcoOp.opAdd 0 5, EcoOp.opRemove 1 7] (by decide) (by decide) 2

/-! Claim C2. -/

/-- C2, counterexample: a bet argument of "0" is not declined — `parseBet`
coerces it to 1 (`Math.max(1, num)`), `stakeAndCheck` accepts it against a
balance of 5, and a losing spin then stakes it: the balance drops from 5 to
4, so the account state changes. This refutes the claim that a zero (or
negative) bet is never staked and leaves the state unchanged. -/
theorem C2_counterexample_zero_bet_coerced_and_staked :
    parseBet (some "0") = 1 ∧ parseBet (some "-5") = 1 ∧
    stakeAndCheck (parseBet (some "0")) 5 = .ok 5 ∧
    goldOf (spinGo [("u", { gold := 5, cooldowns := [], history := [] })] "u"
        (parseBet (some "0")) 30 0) "u" = 4 := by
  decide

/-- C2, amended: a missing bet argument or one containing no parsable integer
yields bet 0, which every wager command declines with a user-facing message
and no state change; but a numeric bet argument of zero or a negative value
is coerced by `parseBet` to a bet of 1, which is staked whenever the balance
is at least 1 (here: a losing spin debits exactly 1). -/
theorem C2_amended_nonnumeric_declined_zero_negative_coerced
    (db : Store) (id : String) (r : ℚ) (now bal : Int) :
    parseBet none = 0 ∧
    parseBet (some "abc") = 0 ∧
    stakeAndCheck 0 bal = .invalidBet ∧
    spinGo db id 0 r now = db ∧
    parseBet (some "0") = 1 ∧
    parseBet (some "-5") = 1 ∧
    (r < 50 → 1 ≤ goldOf db id →
      goldOf (spinGo db id (parseBet (some "0")) r now) id = goldOf db id - 1) := by
  refine ⟨rfl, by decide, ?_, ?_, by decide, by decide, ?_⟩
  · simp [stakeAndCheck]
  · simp [spinGo, stakeAndCheck]
  · intro hr hg
    have hpb : parseBet (some "0") = 1 := by decide
    have hm : spinMult r = 0 := by simp [spinMult, hr]
    have hok : stakeAndCheck 1 (goldOf db id) = .ok (goldOf db id) := by
      rw [stakeAndCheck, if_neg (by omega : ¬ (1 : Int) ≤ 0),
        if_neg (by omega : ¬ goldOf db id < 1)]
    rw [hpb]
    simp only [spinGo, hok, hm, if_pos]
    rw [goldOf_remove]
    omega

/-- C2 witness: the losing spin with coerced bet 1 on balance 5. -/
theorem C2_amended_witness :
    goldOf (spinGo [("u", { gold := 5, cooldowns := [], history := [] })] "u"
        (parseBet (some "0")) 30 0) "u" =
      goldOf [("u", { gold := 5, cooldowns := [], history := [] })] "u" - 1 :=
  (C2_amended_nonnumeric_declined_zero_negative_coerced
      [("u", { gold := 5, cooldowns := [], history := [] })] "u" 30 0 0).2.2.2.2.2.2
    (by norm_num) (by decide)

/-! Claim C5. -/

/-- C5: for the handler's cooldown configurations (dig/fish: 30 minutes shown
in minutes; work: 1 hour shown in minutes; daily: 24 hours shown in hours;
weekly: 7 days shown in days), a claim is granted when the action was never
claimed (recorded timestamp 0, which is also what an absent cooldown entry
reads as) or when the elapsed time reaches the period; a claim before the
period elapses is declined, and the displayed remaining wait (the ceiling of
the remaining time in the period's display unit) is positive and at most the
period. The store-level `canClaim` is the same comparison applied to the
stored timestamp. -/
theorem C5_cooldown_gate_grant_decline_and_wait
    (now last ms unit : Int)
    (hcfg : (ms, unit) = (1800000, 60000) ∨ (ms, unit) = (3600000, 60000) ∨
            (ms, unit) = (86400000, 3600000) ∨ (ms, unit) = (604800000, 86400000))
    (hmono : last ≤ now) :
    (last = 0 → canClaimAt last now ms = true) ∧
    (ms ≤ now - last → canClaimAt last now ms = true) ∧
    (last ≠ 0 → now - last < ms →
      canClaimAt last now ms = false ∧
      0 < waitDisplay ms (now - last) unit ∧
      waitDisplay ms (now - last) unit * unit ≤ ms) ∧
    (∀ db : Store, ∀ id key : String,
      (canClaim db id key ms now).2 = canClaimAt (getCooldown db id key).2 now ms) ∧
    (∀ id key : String, (getCooldown (ensureUser [] id).1 id key).2 = 0) := by
  refine ⟨fun h0 => by simp [canClaimAt, h0], ?_, ?_, fun db id key => rfl, ?_⟩
  · intro hge
    by_cases h0 : last = 0
    · simp [canClaimAt, h0]
    · simp [canClaimAt, h0, hge]
  · intro h0 hlt
    have hfalse : canClaimAt last now ms = false := by
      simp only [canClaimAt, if_neg h0, decide_eq_false_iff_not]
      omega
    refine ⟨hfalse, ?_, ?_⟩ <;>
      (rcases hcfg with h | h | h | h <;>
        (rw [Prod.mk.injEq] at h; obtain ⟨h1, h2⟩ := h; subst h1; subst h2;
         rw [waitDisplay]; omega))
  · intro id key
    have h : lookupAcc ([] : Store) id = none := rfl
    simp [ensureUser_of_none h, setAcc, getCooldown, ensureUser, lookupAcc,
      lookupCd, defaultAccount]

/-- C5 witness: dig cooldown (30 minutes), claimed at time 1000, retried
15 minutes later: declined, and the displayed wait is positive and at most
30 minutes. -/
theorem C5_cooldown_witness :
    canClaimAt 1000 901000 1800000 = false ∧
    0 < waitDisplay 1800000 (901000 - 1000) 60000 ∧
    waitDisplay 1800000 (901000 - 1000) 60000 * 60000 ≤ 1800000 :=
  (C5_cooldown_gate_grant_decline_and_wait 901000 1000 1800000 60000
    (Or.inl rfl) (by norm_num)).2.2.1 (by norm_num) (by norm_num)

/-! Claim C6. -/

/-- C6: for a positive bet and a non-negative balance, `stakeAndCheck` with
bet equal to the balance exactly accepts (it is not treated as insufficient
funds), while bet equal to balance + 1 is declined as insufficient funds, and
the spin command then returns without touching the store. -/
theorem C6_bet_equal_balance_accepted_above_declined
    (db : Store) (id : String) (bet now : Int) (r : ℚ)
    (h0 : 0 ≤ goldOf db id) :
    (0 < bet → bet = goldOf db id →
      stakeAndCheck bet (goldOf db id) = .ok (goldOf db id)) ∧
    stakeAndCheck (goldOf db id + 1) (goldOf db id) = .insufficient (goldOf db id) ∧
    spinGo db id (goldOf db id + 1) r now = db := by
  have hins : stakeAndCheck (goldOf db id + 1) (goldOf db id) =
      .insufficient (goldOf db id) := by
    rw [stakeAndCheck, if_neg (by omega : ¬ goldOf db id + 1 ≤ 0),
      if_pos (by omega : goldOf db id < goldOf db id + 1)]
  refine ⟨?_, hins, ?_⟩
  · intro hb heq
    rw [← heq, stakeAndCheck, if_neg (by omega : ¬ bet ≤ 0),
      if_neg (by omega : ¬ bet < bet)]
  · simp only [spinGo, hins]

/-- C6 witness: balance 5 — a bet of 5 is accepted, a bet of 6 is declined as
insufficient and the store is unchanged. -/
theorem C6_bet_equal_balance_witness :
    stakeAndCheck 5 (goldOf [("u", { gold := 5, cooldowns := [], history := [] })] "u") =
      .ok (goldOf [("u", { gold := 5, cooldowns := [], history := [] })] "u") ∧
    spinGo [("u", { gold := 5, cooldowns := [], history := [] })] "u"
        (goldOf [("u", { gold := 5, cooldowns := [], history := [] })] "u" + 1) 30 0 =
      [("u", { gold := 5, cooldowns := [], history := [] })] := by
  have h := C6_bet_equal_balance_accepted_above_declined
    [("u", { gold := 5, cooldowns := [], history := [] })] "u" 5 0 30 (by decide)
  exact ⟨h.1 (by norm_num) (by decide), h.2.2⟩

/-! Claim C7. -/

/-- C7: the spin outcome is a deterministic function of the draw: a draw
below 50 loses the bet (applied delta `-bet`), a draw in the 50 to 85 bucket
wins with multiplier 2 (delta `bet * 2`), in the 85 to 97 bucket multiplier 5,
from 97 up multiplier 10; in particular a bet of 100 with draw 60 applies
+200 and with draw 30 applies -100; and on an accepted spin the balance
changes by exactly the applied delta. -/
theorem C7_spin_buckets_and_applied_delta
    (bet : Int) (r : ℚ) (db : Store) (id : String) (now : Int) :
    (r < 50 → spinMult r = 0 ∧ spinDelta bet r = -bet) ∧
    (50 ≤ r → r < 85 → spinMult r = 2 ∧ spinDelta bet r = bet * 2) ∧
    (85 ≤ r → r < 97 → spinMult r = 5 ∧ spinDelta bet r = bet * 5) ∧
    (97 ≤ r → spinMult r = 10 ∧ spinDelta bet r = bet * 10) ∧
    spinDelta 100 60 = 200 ∧
    spinDelta 100 30 = -100 ∧
    (0 < bet → bet ≤ goldOf db id →
      goldOf (spinGo db id bet r now) id = goldOf db id + spinDelta bet r) := by
    refine ⟨?_, ?_, ?_, ?_, by decide, by decide, ?_⟩
    · intro h1
      have hm : spinMult r = 0 := by simp [spinMult, h1]
      exact ⟨hm, by simp [spinDelta, hm]⟩
    · intro h1 h2
      have hm : spinMult r = 2 := by simp [spinMult, not_lt.mpr h1, h2]
      exact ⟨hm, by simp [spinDelta, hm]⟩
    · intro h1 h2
      have hm : spinMult r = 5 := by
        simp [spinMult, not_lt.mpr (le_trans (show (50 : ℚ) ≤ 85 by norm_num) h1),
          not_lt.mpr h1, h2]
      exact ⟨hm, by simp [spinDelta, hm]⟩
    · intro h1
      have hm : spinMult r = 10 := by
        simp [spinMult, not_lt.mpr (le_trans (show (50 : ℚ) ≤ 97 by norm_num) h1),
          not_lt.mpr (le_trans (show (85 : ℚ) ≤ 97 by norm_num) h1), not_lt.mpr h1]
      exact ⟨hm, by simp [spinDelta, hm]⟩
    · intro hb hg
      have hok : stakeAndCheck bet (goldOf db id) = .ok (goldOf db id) := by
        rw [stakeAndCheck, if_neg (by omega : ¬ bet ≤ 0), if_neg (by omega : ¬ goldOf db id < bet)]
      by_cases hm : spinMult r = 0
      · simp only [spinGo, hok, hm, if_pos, goldOf_remove, spinDelta]
        omega
      · simp only [spinGo, hok, if_neg hm, goldOf_add, spinDelta]

/-- C7 witness: bet 100, draw 60 (multiplier 2, delta +200) applied to a
balance of 300 yields 500. -/
theorem C7_spin_witness :
    spinMult 60 = 2 ∧ spinDelta 100 60 = 100 * 2 ∧
    goldOf (spinGo [("u", { gold := 300, cooldowns := [], history := [] })] "u" 100 60 0) "u" =
      goldOf [("u", { gold := 300, cooldowns := [], history := [] })] "u" + spinDelta 100 60 := by
  have h := C7_spin_buckets_and_applied_delta 100 60
    [("u", { gold := 300, cooldowns := [], history := [] })] "u" 0
  exact ⟨(h.2.1 (by norm_num) (by norm_num)).1, (h.2.1 (by norm_num) (by norm_num)).2,
    h.2.2.2.2.2.2 (by norm_num) (by decide)⟩

/-! Claim C8. -/

/-- C8: the roulette wheel color is green exactly on 0 and otherwise follows
the parity of the draw (black on even, red on odd); a numeric pick credits
`bet * 36` on an exact match and debits the bet otherwise; a color pick
credits `bet * 2` on a match (`bet * 14` when the pick is green and the wheel
is 0) and debits the bet on a mismatch; an empty pick is an automatic loss
debiting the bet. -/
theorem C8_roulette_color_and_deltas
    (bet : Int) (w n : Nat) (pick : String) (hw : w ≤ 36) :
    rouletteColor 0 = "green" ∧
    (w ≠ 0 → rouletteColor w = (if w % 2 = 0 then "black" else "red")) ∧
    rouletteDelta bet "" w = -bet ∧
    (pickNumOf pick = some n → n = w → rouletteDelta bet pick w = bet * 36) ∧
    (pickNumOf pick = some n → n ≠ w → rouletteDelta bet pick w = -bet) ∧
    (pickNumOf pick = none → pick ≠ "" → pick = rouletteColor w → w = 0 →
      rouletteDelta bet pick w = bet * 14) ∧
    (pickNumOf pick = none → pick ≠ "" → pick = rouletteColor w → w ≠ 0 →
      rouletteDelta bet pick w = bet * 2) ∧
    (pickNumOf pick = none → pick ≠ "" → pick ≠ rouletteColor w →
      rouletteDelta bet pick w = -bet) := by
  have hne_of_some : ∀ m, pickNumOf pick = some m → pick ≠ "" := by
    intro m hp he
    subst he
    simp [pickNumOf] at hp
  refine ⟨rfl, ?_, by simp [rouletteDelta], ?_, ?_, ?_, ?_, ?_⟩
  · intro h
    simp [rouletteColor, h]
  · intro hp he
    simp [rouletteDelta, hne_of_some n hp, hp, he]
  · intro hp hne2
    simp [rouletteDelta, hne_of_some n hp, hp, hne2]
  · intro hp hne hcol hw0
    subst hw0
    simp only [rouletteDelta, if_neg hne, hp]
    rw [if_pos hcol]
    simp [rouletteColor]
  · intro hp hne hcol hw0
    have hcg : rouletteColor w ≠ "green" := by
      by_cases hpar : w % 2 = 0 <;> simp [rouletteColor, hw0, hpar]
    simp only [rouletteDelta, if_neg hne, hp]
    rw [if_pos hcol, if_neg hcg]
  · intro hp hne hcol
    simp [rouletteDelta, hne, hp, hcol]

/-- C8 witness: wheel draw 17 (red): a numeric pick of 17 wins 36-fold, a
pick of red wins 2-fold. -/
theorem C8_roulette_witness :
    rouletteDelta 10 "17" 17 = 10 * 36 ∧ rouletteDelta 10 "red" 17 = 10 * 2 :=
  ⟨(C8_roulette_color_and_deltas 10 17 17 "17" (by norm_num)).2.2.2.1
      (by decide) rfl,
   (C8_roulette_color_and_deltas 10 17 17 "red" (by norm_num)).2.2.2.2.2.2.1
      (by decide) (by decide) (by decide) (by decide)⟩

/-! Claim C9. -/

/-- C9: `ensureUser` is idempotent: the record it creates on a fresh id has
balance 0, empty cooldowns and empty history; a second call on the resulting
store returns the same store and the same record; and on an id whose record
already exists the call leaves the store unchanged and returns that record. -/
theorem C9_ensureUser_idempotent (db : Store) (id : String) :
    ensureUser (ensureUser db id).1 id = ((ensureUser db id).1, (ensureUser db id).2) ∧
    defaultAccount.gold = 0 ∧ defaultAccount.cooldowns = [] ∧
    defaultAccount.history = [] ∧
    (getUser db id = none →
      (ensureUser db id).2 = defaultAccount ∧
      getUser (ensureUser db id).1 id = some defaultAccount) ∧
    (∀ u : Account, getUser db id = some u → ensureUser db id = (db, u)) := by
  refine ⟨?_, rfl, rfl, rfl, ?_, ?_⟩
  · exact ensureUser_of_some (getUser_ensureUser_fst db id)
  · intro h
    rw [show getUser db id = lookupAcc db id from rfl] at h
    rw [ensureUser_of_none h]
    exact ⟨rfl, by simp [getUser, lookupAcc_setAcc_self]⟩
  · intro u h
    exact ensureUser_of_some h

/-- C9 witness: a fresh id in the empty store: the created record is the
default one and is found by a subsequent lookup. -/
theorem C9_ensureUser_witness :
    (ensureUser [] "u").2 = defaultAccount ∧
    getUser (ensureUser [] "u").1 "u" = some defaultAccount :=
  (C9_ensureUser_idempotent [] "u").2.2.2.2.1 rfl

/-! Claim C10. -/

/-- C10: when reading or parsing the persisted file fails, `load` falls back
to the empty collection, so `getUser` returns null for every id, `getCooldown`
reads 0, and the next mutation (here an `add`) persists a store containing
only the account it just created — previously persisted accounts are silently
dropped rather than an error being surfaced. -/
theorem C10_load_failure_empty_store (id key : String) (now amt : Int) :
    load none = ([] : Store) ∧
    getUser (load none) id = none ∧
    (getCooldown (load none) id key).2 = 0 ∧
    (add (load none) id now amt).1 =
      [(id, { gold := amt, cooldowns := [],
              history := [{ time := now, change := amt }] })] := by
  refine ⟨rfl, rfl, rfl, ?_⟩
  simp [load, add, ensureUser, lookupAcc, set, setAcc, defaultAccount]

end MikasaEconomy
